import Mathlib

/-!
Shallow embedding of the needle-tip estimation and fusion engine of
AINeedleTracking (AINeedleTracking.py).  Coordinates are modelled over ℚ,
voxel indices over ℤ; masks are finite sets of voxel indices.  Each
definition mirrors the Python function of the same (or closely related)
name; theorems at the end settle one specification claim each.
-/

namespace AINeedle

/-- A 3-vector of rational coordinates (stands for the float 3-vectors of
the source: RAS points, translations, centroids). -/
structure Vec3 where
  x : ℚ
  y : ℚ
  z : ℚ
deriving DecidableEq, Repr

/-- A voxel index (x, y, z) in image index space. -/
abbrev Voxel := ℤ × ℤ × ℤ

/-- A binary mask: the finite set of its foreground voxels. -/
abbrev Mask := Finset Voxel

/-- Minkowski dilation of a mask by a structuring element
(`sitk.BinaryDilate`). -/
def dilate (m se : Mask) : Mask :=
  m.biUnion (fun v => se.image (fun s => (v.1 + s.1, v.2.1 + s.2.1, v.2.2 + s.2.2)))

/-- The ball structuring element of radius `d` voxels per axis, the default
kernel of `sitk.BinaryDilate(img, (d, d, d))`. -/
def seBall (d : ℕ) : Mask :=
  ((Finset.Icc (-(d : ℤ)) d ×ˢ Finset.Icc (-(d : ℤ)) d ×ˢ Finset.Icc (-(d : ℤ)) d)).filter
    (fun v => v.1 ^ 2 + v.2.1 ^ 2 + v.2.2 ^ 2 ≤ (d : ℤ) ^ 2)

/-- `AINeedleTrackingLogic.checkIfAdjacent` (lines 2425-2435).  The Python
guards the dilation with `if sitk_tip is not None:` but the following line
`intersection = sitk_dilated_tip & sitk_shaft` references the dilated tip
unconditionally, so a `None` tip leaves `sitk_dilated_tip` unbound and the
call raises `NameError`; a `None` shaft makes the `&` raise `TypeError`. -/
def checkIfAdjacent (sitk_tip : Option Mask) (sitk_shaft : Option Mask) (se : Mask) :
    Except String Bool :=
  match sitk_tip with
  | none => Except.error "NameError"
  | some tip =>
    match sitk_shaft with
    | none => Except.error "TypeError"
    | some shaft => Except.ok (decide (((dilate tip se) ∩ shaft).Nonempty))

/-- One connected component as produced by `separateComponents`
(lines 2438-2458): its label, pixel count, physical centroid, and the
binary mask selected for it by `sitk.BinaryThreshold` on that label. -/
structure CandC where
  label : ℕ
  size : ℕ
  centroid : Vec3
  mask : Mask
deriving DecidableEq

/-- Candidate Selector, steps 5 of `getNeedle` (lines 3107-3181): pick the
largest tip and shaft components, retain second candidates only above the
size thresholds, then run the fixed fallback adjacency search
T1S1, T1S2, T2S1, T2S2.  `tipComps`/`shaftComps` are the size-sorted
component dictionaries (the empty list stands for the `None` dictionary of
an empty mask).  Returns (selected tip, selected shaft, connected). -/
def selectNeedleCandidates (se : Mask) (tipComps shaftComps : List CandC)
    (minTip minShaft : ℕ) : Except String (Option CandC × Option CandC × Bool) :=
  let shaft1? := shaftComps.head?
  let shaft2? := match shaftComps with
    | _ :: s2 :: _ => if minShaft ≤ s2.size then some s2 else none
    | _ => none
  let tip1? := tipComps.head?
  let tip2? := match tipComps with
    | _ :: t2 :: _ => if minTip ≤ t2.size then some t2 else none
    | _ => none
  let selTipMask? := tip1?.map (fun c => c.mask)
  let selShaftMask? := shaft1?.map (fun c => c.mask)
  match tip1?, shaft1? with
  | some t1, some s1 =>
    (match checkIfAdjacent selTipMask? selShaftMask? se with
     | Except.error e => Except.error e
     | Except.ok c1 =>
       if c1 then Except.ok (some t1, some s1, true)
       else
         match shaft2? with
         | some s2 =>
           (match checkIfAdjacent selTipMask? (some s2.mask) se with
            | Except.error e => Except.error e
            | Except.ok c2 =>
              if c2 then Except.ok (some t1, some s2, true)
              else
                match tip2? with
                | some t2 =>
                  (match checkIfAdjacent (some t2.mask) selShaftMask? se with
                   | Except.error e => Except.error e
                   | Except.ok c3 =>
                     if c3 then Except.ok (some t2, some s1, true)
                     else
                       match checkIfAdjacent (some t2.mask) (some s2.mask) se with
                       | Except.error e => Except.error e
                       | Except.ok c4 =>
                         if c4 then Except.ok (some t2, some s2, true)
                         else Except.ok (some t1, some s1, false))
                | none => Except.ok (some t1, some s1, false))
         | none =>
           match tip2? with
           | some t2 =>
             (match checkIfAdjacent (some t2.mask) selShaftMask? se with
              | Except.error e => Except.error e
              | Except.ok c3 =>
                if c3 then Except.ok (some t2, some s1, true)
                else Except.ok (some t1, some s1, false))
           | none => Except.ok (some t1, some s1, false))
  | t?, s? => Except.ok (t?, s?, false)

/-- The Boolean adjacency test between two selected components (the value
`checkIfAdjacent` computes when both masks are present). -/
def adjB (se : Mask) (t s : CandC) : Bool :=
  decide (((dilate t.mask se) ∩ s.mask).Nonempty)

/-- Modelled from the spec's words for the Candidate Selector (§4.2): the
candidate pair list in the documented precedence order (tip1,shaft1),
(tip1,shaft2), (tip2,shaft1), (tip2,shaft2), existing pairs only. -/
def specPairList (t1 : CandC) (t2? : Option CandC) (s1 : CandC) (s2? : Option CandC) :
    List (CandC × CandC) :=
  [(t1, s1)]
    ++ (match s2? with | some s2 => [(t1, s2)] | none => [])
    ++ (match t2? with | some t2 => [(t2, s1)] | none => [])
    ++ (match t2?, s2? with | some t2, some s2 => [(t2, s2)] | _, _ => [])

/-- Modelled from the spec's words (§4.2): first adjacent pair in the fixed
precedence order becomes the selection, else `connected = false` with
tip1/shaft1; second candidates retained only above the size minimums; no
adjacency test when one of tip/shaft is absent. -/
def specCandidateSelector (se : Mask) (tipComps shaftComps : List CandC)
    (minTip minShaft : ℕ) : Option CandC × Option CandC × Bool :=
  let shaft2? := match shaftComps with
    | _ :: s2 :: _ => if minShaft ≤ s2.size then some s2 else none
    | _ => none
  let tip2? := match tipComps with
    | _ :: t2 :: _ => if minTip ≤ t2.size then some t2 else none
    | _ => none
  match tipComps.head?, shaftComps.head? with
  | some t1, some s1 =>
    (match (specPairList t1 tip2? s1 shaft2?).find? (fun p => adjB se p.1 p.2) with
     | some p => (some p.1, some p.2, true)
     | none => (some t1, some s1, false))
  | t?, s? => (t?, s?, false)

/-- Confidence Classifier, step 6 of `getNeedle` (lines 3198-3261), as the
code's nested conditionals.  `tip?` carries the selected tip's (size,
centroid), `shaftSize?` the selected shaft's size, `shaftTipPt` the value
`getShaftTipCoordinates(BinaryThinning(selected shaft))` would produce.
Returns `none` for the no-tip/no-shaft early `return None`, otherwise the
integer confidence (1-5) and the representative image-space point. -/
def classifyTip (tip? : Option (ℕ × Vec3)) (shaftSize? : Option ℕ) (shaftTipPt : Vec3)
    (connected : Bool) (minTip minShaft : ℕ) : Option (ℕ × Vec3) :=
  match tip? with
  | none =>
    (match shaftSize? with
     | none => none
     | some ss =>
       if minShaft ≤ ss then some (2, shaftTipPt) else some (1, shaftTipPt))
  | some (tsz, tcen) =>
    match shaftSize? with
    | none => if minTip ≤ tsz then some (3, tcen) else some (1, tcen)
    | some ss =>
      if connected then
        if minTip ≤ tsz then some (5, tcen)
        else if minShaft ≤ ss then some (4, tcen)
        else some (3, tcen)
      else
        if minTip ≤ tsz then some (3, tcen)
        else if minShaft ≤ ss then some (2, shaftTipPt)
        else some (1, tcen)

/-- A ternary column entry of the spec's decision table: yes, no, or the
wildcard. -/
inductive Tri
  | yes
  | no
  | any
deriving DecidableEq

/-- Whether a Boolean observation matches a table entry. -/
def Tri.matchesB : Tri → Bool → Bool
  | Tri.yes, b => b
  | Tri.no, b => !b
  | Tri.any, _ => true

/-- One row of the spec's decision table (§4.3): the five condition
columns, the confidence output (`none` = "None"), and the point source
(`true` = tip centroid, `false` = shaft skeleton extremity). -/
structure SpecRow where
  tipP : Tri
  shaftP : Tri
  conn : Tri
  tipBig : Tri
  shaftBig : Tri
  conf : Option ℕ
  usesTipCentroid : Bool
deriving DecidableEq

/-- Modelled from the spec's words: the eleven rows of the §4.3 table, in
order. -/
def specRows : List SpecRow :=
  [⟨Tri.no, Tri.no, Tri.any, Tri.any, Tri.any, none, true⟩,
   ⟨Tri.no, Tri.yes, Tri.any, Tri.any, Tri.yes, some 2, false⟩,
   ⟨Tri.no, Tri.yes, Tri.any, Tri.any, Tri.no, some 1, false⟩,
   ⟨Tri.yes, Tri.no, Tri.any, Tri.yes, Tri.any, some 3, true⟩,
   ⟨Tri.yes, Tri.no, Tri.any, Tri.no, Tri.any, some 1, true⟩,
   ⟨Tri.yes, Tri.yes, Tri.yes, Tri.yes, Tri.any, some 5, true⟩,
   ⟨Tri.yes, Tri.yes, Tri.yes, Tri.no, Tri.yes, some 4, true⟩,
   ⟨Tri.yes, Tri.yes, Tri.yes, Tri.no, Tri.no, some 3, true⟩,
   ⟨Tri.yes, Tri.yes, Tri.no, Tri.yes, Tri.any, some 3, true⟩,
   ⟨Tri.yes, Tri.yes, Tri.no, Tri.no, Tri.yes, some 2, false⟩,
   ⟨Tri.yes, Tri.yes, Tri.no, Tri.no, Tri.no, some 1, true⟩]

/-- Whether a table row matches the observed situation. -/
def rowMatches (r : SpecRow) (tipPresent shaftPresent connected tipBig shaftBig : Bool) :
    Bool :=
  r.tipP.matchesB tipPresent && r.shaftP.matchesB shaftPresent
    && r.conn.matchesB connected && r.tipBig.matchesB tipBig
    && r.shaftBig.matchesB shaftBig

/-- Modelled from the spec's words (§4.3): evaluate the table top to
bottom, first matching row wins; outer `none` means no row matched. -/
def specTableClassify (tip? : Option (ℕ × Vec3)) (shaftSize? : Option ℕ)
    (shaftTipPt : Vec3) (connected : Bool) (minTip minShaft : ℕ) :
    Option (Option (ℕ × Vec3)) :=
  let tipPresent := tip?.isSome
  let shaftPresent := shaftSize?.isSome
  let tipBig := match tip? with
    | some (tsz, _) => decide (minTip ≤ tsz)
    | none => false
  let shaftBig := match shaftSize? with
    | some ss => decide (minShaft ≤ ss)
    | none => false
  match specRows.find? (fun r => rowMatches r tipPresent shaftPresent connected tipBig shaftBig) with
  | none => none
  | some r =>
    some (match r.conf with
          | none => none
          | some c =>
            some (c, if r.usesTipCentroid then
                       (match tip? with | some (_, tcen) => tcen | none => shaftTipPt)
                     else shaftTipPt))

/-! ### Temporal filter (smoothing helper functions, lines 2859-2938) -/

/-- A 6-vector [pos; vel] of the constant-velocity Kalman filter. -/
abbrev Vec6 := Fin 6 → ℚ

/-- A 6x6 covariance matrix. -/
abbrev Mat6 := Fin 6 → Fin 6 → ℚ

/-- Generic matrix product over ℚ with `Fin`-indexed matrices. -/
def mmul {a b c : ℕ} (A : Fin a → Fin b → ℚ) (B : Fin b → Fin c → ℚ) :
    Fin a → Fin c → ℚ :=
  fun i k => ∑ j, A i j * B j k

/-- Matrix transpose. -/
def mtrans {a b : ℕ} (A : Fin a → Fin b → ℚ) : Fin b → Fin a → ℚ :=
  fun i j => A j i

/-- Entrywise matrix sum. -/
def madd {a b : ℕ} (A B : Fin a → Fin b → ℚ) : Fin a → Fin b → ℚ :=
  fun i j => A i j + B i j

/-- Entrywise matrix difference. -/
def msub {a b : ℕ} (A B : Fin a → Fin b → ℚ) : Fin a → Fin b → ℚ :=
  fun i j => A i j - B i j

/-- Matrix-vector product. -/
def mvmul {a b : ℕ} (A : Fin a → Fin b → ℚ) (x : Fin b → ℚ) : Fin a → ℚ :=
  fun i => ∑ j, A i j * x j

/-- The identity matrix. -/
def mId (n : ℕ) : Fin n → Fin n → ℚ :=
  fun i j => if i = j then 1 else 0

/-- The measurement model `H = [I3 | 03]` of `_kf_mats`. -/
def kfH : Fin 3 → Fin 6 → ℚ :=
  fun i j => if (j : ℕ) = (i : ℕ) then 1 else 0

/-- The state transition `F(dt)` of `_kf_mats`: identity plus `dt` on the
position-velocity couplings. -/
def kfF (dt : ℚ) : Mat6 :=
  fun i j => if i = j then 1 else if (j : ℕ) = (i : ℕ) + 3 then dt else 0

/-- The discretized white-noise-acceleration process noise `Q(dt, q)` of
`_kf_mats` (block per axis). -/
def kfQ (dt q : ℚ) : Mat6 :=
  fun i j =>
    if i = j then (if (i : ℕ) < 3 then dt ^ 4 / 4 * q else dt ^ 2 * q)
    else if (j : ℕ) = (i : ℕ) + 3 ∨ (i : ℕ) = (j : ℕ) + 3 then dt ^ 3 / 2 * q
    else 0

/-- The measurement noise `R = r·I3` of `_kf_mats`. -/
def kfR (r : ℚ) : Fin 3 → Fin 3 → ℚ :=
  fun i j => if i = j then r else 0

/-- Determinant of a 3x3 matrix (cofactor expansion along the first row). -/
def det3 (S : Fin 3 → Fin 3 → ℚ) : ℚ :=
  S 0 0 * (S 1 1 * S 2 2 - S 1 2 * S 2 1)
    - S 0 1 * (S 1 0 * S 2 2 - S 1 2 * S 2 0)
    + S 0 2 * (S 1 0 * S 2 1 - S 1 1 * S 2 0)

/-- The first of the two other indices of a `Fin 3` value. -/
def f3a (i : Fin 3) : Fin 3 := if i = 0 then 1 else 0

/-- The second of the two other indices of a `Fin 3` value. -/
def f3b (i : Fin 3) : Fin 3 := if i = 2 then 1 else 2

/-- Inverse of a 3x3 matrix by Cramer's rule (adjugate over determinant);
stands for `np.linalg.inv` on a nonsingular matrix. -/
def inv3 (S : Fin 3 → Fin 3 → ℚ) : Fin 3 → Fin 3 → ℚ :=
  fun i j =>
    (if ((j : ℕ) + (i : ℕ)) % 2 = 0 then 1 else -1)
      * (S (f3a j) (f3a i) * S (f3b j) (f3b i) - S (f3a j) (f3b i) * S (f3b j) (f3a i))
      / det3 S

/-- The innovation covariance `S = H P Hᵀ + R` of `_kf_update`. -/
def kfS (P : Mat6) (r : ℚ) : Fin 3 → Fin 3 → ℚ :=
  madd (mmul (mmul kfH P) (mtrans kfH)) (kfR r)

/-- `_kf_update` (lines 2906-2915).  `np.linalg.inv` raises `LinAlgError`
on an exactly singular innovation covariance; nothing in the source
catches it, so the embedding returns an error in that case. -/
def kf_update (x : Vec6) (P : Mat6) (z : Fin 3 → ℚ) (r : ℚ) :
    Except String (Vec6 × Mat6) :=
  let S := kfS P r
  if det3 S = 0 then Except.error "LinAlgError"
  else
    let K := mmul (mmul P (mtrans kfH)) (inv3 S)
    let y := fun i => z i - (mvmul kfH x) i
    let x2 := fun i => x i + (mvmul K y) i
    let P2 := mmul (msub (mId 6) (mmul K kfH)) P
    Except.ok (x2, P2)

/-- `_kf_predict` (lines 2901-2904): state and covariance propagation. -/
def kf_predict (dt q : ℚ) (x : Vec6) (P : Mat6) : Vec6 × Mat6 :=
  (mvmul (kfF dt) x, madd (mmul (mmul (kfF dt) P) (mtrans (kfF dt))) (kfQ dt q))

/-- The mutable smoothing state of the logic object: `_emaPos`,
`_kf_initialized`, `_kf_x`, `_kf_P`, `_last_update_ts`
(reset in `initializeTracking`, lines 2724-2729). -/
structure SmoothState where
  emaPos : Option Vec3
  kfInit : Bool
  kfX : Option Vec6
  kfP : Option Mat6
  lastTs : Option ℚ

/-- `_apply_ema` (lines 2866-2873): first call stores and returns the
measurement; later calls blend with gain `a`. -/
def apply_ema (a : ℚ) (st : SmoothState) (z : Vec3) : Vec3 × SmoothState :=
  match st.emaPos with
  | none => (z, { st with emaPos := some z })
  | some p =>
    let v : Vec3 := ⟨a * z.x + (1 - a) * p.x, a * z.y + (1 - a) * p.y,
                     a * z.z + (1 - a) * p.z⟩
    (v, { st with emaPos := some v })

/-- `_kf_init` (lines 2875-2880): position from measurement, zero
velocity, covariance `10·I`. -/
def kf_init (z : Vec3) : Vec6 :=
  fun i => if i = 0 then z.x else if i = 1 then z.y else if i = 2 then z.z else 0

/-- A measurement as the `Fin 3`-indexed vector `_kf_update` consumes. -/
def vecF (z : Vec3) : Fin 3 → ℚ :=
  fun i => if i = 0 then z.x else if i = 1 then z.y else z.z

/-- The elapsed time `dt` of `_apply_kf`: wall-clock difference clamped
at zero, or zero when either timestamp is absent. -/
def dtOf (t0? t1? : Option ℚ) : ℚ :=
  match t0?, t1? with
  | some t0, some t1 => max 0 (t1 - t0)
  | _, _ => 0

/-- `_apply_kf` (lines 2917-2928).  The Python mutates `_kf_x`/`_kf_P` in
place inside `_kf_predict` before `_kf_update` runs, so when the update
raises, the stored state is the predicted one and `_last_update_ts` is
left unchanged; the exception escapes, which the embedding returns as the
`Except.error` outcome next to the post-call state. -/
def apply_kf (q r : ℚ) (st : SmoothState) (z : Vec3) (ts : Option ℚ) :
    Except String Vec3 × SmoothState :=
  if st.kfInit = false then
    (Except.ok z,
     { st with kfInit := true, kfX := some (kf_init z),
               kfP := some (fun i j => if i = j then 10 else 0), lastTs := ts })
  else
    match st.kfX, st.kfP with
    | some x, some P =>
      let xP1 := kf_predict (dtOf st.lastTs ts) q x P
      (match kf_update xP1.1 xP1.2 (vecF z) r with
       | Except.error e =>
         (Except.error e, { st with kfX := some xP1.1, kfP := some xP1.2 })
       | Except.ok xP2 =>
         (Except.ok ⟨xP2.1 0, xP2.1 1, xP2.1 2⟩,
          { st with kfX := some xP2.1, kfP := some xP2.2, lastTs := ts }))
    | _, _ => (Except.error "TypeError", st)

/-- The smoothing strategy selector string of the source
(`self.smoothingMethod`). -/
inductive SmoothMethod
  | EMA
  | Kalman
deriving DecidableEq

/-- Session smoothing configuration: `smoothingEnabled`,
`smoothingMethod`, `emaAlpha`, `kf_q`, `kf_r` (lines 2174-2179). -/
structure SmoothCfg where
  enabled : Bool
  method : SmoothMethod
  alpha : ℚ
  q : ℚ
  r : ℚ

/-- `smoothTip` (lines 2930-2938): identity when disabled, else dispatch
to the Kalman filter or (default) the EMA. -/
def smoothTip (cfg : SmoothCfg) (st : SmoothState) (z : Vec3) (ts : Option ℚ) :
    Except String Vec3 × SmoothState :=
  if cfg.enabled = false then (Except.ok z, st)
  else
    match cfg.method with
    | SmoothMethod.Kalman => apply_kf cfg.q cfg.r st z ts
    | SmoothMethod.EMA =>
      let vs := apply_ema cfg.alpha st z
      (Except.ok vs.1, vs.2)

/-! ### Multi-plane fusion and tracked-tip update (getNeedle steps 7-8) -/

/-- One of the three acquisition planes. -/
inductive Plane
  | COR
  | SAG
  | AX
deriving DecidableEq

/-- `self.prevDetection`: whether each plane has already produced a
confident detection in this session (entries 0 = COR, 1 = SAG, 2 = AX;
the `is True` tests of the source make the initial `None`/`False`
entries equivalent, so `Bool` suffices). -/
structure PrevDet where
  cor : Bool
  sag : Bool
  ax : Bool
deriving DecidableEq

/-- The fused tracked-tip proposal of `getNeedle` step 8 (lines
3295-3326), before smoothing: the reporting plane writes its two in-plane
axes unconditionally; the through-plane axis is written only when no
other plane has reported in this session AND the new coordinate differs
from the image-center coordinate by at least half the slice thickness.
Returns the proposed position and the updated `prevDetection`. -/
def fuseTip (plane : Plane) (centerRAS imgCenter : Vec3) (thickness : ℚ)
    (pd : PrevDet) (old : Vec3) : Vec3 × PrevDet :=
  match plane with
  | Plane.COR =>
    let v1 : Vec3 := { old with x := centerRAS.x, z := centerRAS.z }
    let v2 : Vec3 :=
      if (pd.sag || pd.ax) = false then
        (if (1 / 2 : ℚ) * thickness ≤ |imgCenter.y - centerRAS.y| then
          { v1 with y := centerRAS.y } else v1)
      else v1
    (v2, { pd with cor := true })
  | Plane.SAG =>
    let v1 : Vec3 := { old with y := centerRAS.y, z := centerRAS.z }
    let v2 : Vec3 :=
      if (pd.cor || pd.ax) = false then
        (if (1 / 2 : ℚ) * thickness ≤ |imgCenter.x - centerRAS.x| then
          { v1 with x := centerRAS.x } else v1)
      else v1
    (v2, { pd with sag := true })
  | Plane.AX =>
    let v1 : Vec3 := { old with x := centerRAS.x, y := centerRAS.y }
    let v2 : Vec3 :=
      if (pd.cor || pd.sag) = false then
        (if (1 / 2 : ℚ) * thickness ≤ |imgCenter.z - centerRAS.z| then
          { v1 with z := centerRAS.z } else v1)
      else v1
    (v2, { pd with ax := true })

/-- The per-session mutable state `getNeedle` touches: the segmented-tip
node translation, the tracked-tip node translation, `prevDetection`, the
smoothing state, and the tip markup colour flag
(`setTipMarkupColor(tipTracked=...)`). -/
structure NeedleState where
  tipSegm : Vec3
  tipTracked : Vec3
  prevDet : PrevDet
  smooth : SmoothState
  markupTracked : Bool

/-- Step 8 of `getNeedle` (lines 3293-3347): when the classified
confidence meets the configured level, fuse the new point into the
tracked tip, smooth it, and store it (markup colour green); otherwise
leave the tracked tip and the smoothing state untouched (markup colour
red, "not enough confidence").  A smoothing failure escapes as an
exception after `prevDetection` and the filter state were mutated but
before the tracked-tip node is written. -/
def step8 (cfg : SmoothCfg) (level confidence : ℕ) (plane : Plane)
    (centerRAS imgCenter : Vec3) (thickness : ℚ) (ts : Option ℚ)
    (s : NeedleState) : Except String Unit × NeedleState :=
  if level ≤ confidence then
    let fpd := fuseTip plane centerRAS imgCenter thickness s.prevDet s.tipTracked
    let osm := smoothTip cfg s.smooth fpd.1 ts
    (match osm.1 with
     | Except.error e => (Except.error e, { s with prevDet := fpd.2, smooth := osm.2 })
     | Except.ok v =>
       (Except.ok (),
        { s with prevDet := fpd.2, smooth := osm.2, tipTracked := v,
                 markupTracked := true }))
  else (Except.ok (), { s with markupTracked := false })

/-- Steps 5-8 of `AINeedleTrackingLogic.getNeedle` (lines 3107-3372) as a
state transition: candidate selection, confidence classification, the
RAS conversion `(-x, -y, z)` into the segmented-tip node, and the gated
tracked-tip update.  `shaftTipFn` abstracts
`getShaftTipCoordinates(sitk.BinaryThinning(mask))` on the selected shaft
mask.  Returns the emitted confidence (`none` = the early `return None`
of an empty cycle) and the post-call state. -/
def getNeedleCore (se : Mask) (minTip minShaft level : ℕ) (cfg : SmoothCfg)
    (plane : Plane) (tipComps shaftComps : List CandC)
    (shaftTipFn : Mask → Vec3) (imgCenter : Vec3) (thickness : ℚ)
    (ts : Option ℚ) (s : NeedleState) :
    Except String (Option ℕ × NeedleState) :=
  match selectNeedleCandidates se tipComps shaftComps minTip minShaft with
  | Except.error e => Except.error e
  | Except.ok sel =>
    let shaftPt := match sel.2.1 with
      | some c => shaftTipFn c.mask
      | none => ⟨0, 0, 0⟩
    match classifyTip (sel.1.map (fun c => (c.size, c.centroid)))
        (sel.2.1.map (fun c => c.size)) shaftPt sel.2.2 minTip minShaft with
    | none => Except.ok (none, { s with markupTracked := false })
    | some cp =>
      let centerRAS : Vec3 := ⟨-cp.2.x, -cp.2.y, cp.2.z⟩
      let s1 := { s with tipSegm := centerRAS }
      let os2 := step8 cfg level cp.1 plane centerRAS imgCenter thickness ts s1
      match os2.1 with
      | Except.error e => Except.error e
      | Except.ok _ => Except.ok (some cp.1, os2.2)

/-! ### Shaft skeleton extremity (getShaftTipCoordinates, lines 2467-2489) -/

/-- Squared physical distance between two points (comparisons of
`np.linalg.norm` values are comparisons of squares). -/
def Vec3.distSq (a b : Vec3) : ℚ :=
  (a.x - b.x) ^ 2 + (a.y - b.y) ^ 2 + (a.z - b.z) ^ 2

/-- The geometric metadata of an sitk image: per-axis voxel counts,
spacing and origin (identity direction cosines; none of the settled
claims depend on a non-identity direction). -/
structure SImage where
  sizeX : ℕ
  sizeY : ℕ
  sizeZ : ℕ
  spacX : ℚ
  spacY : ℚ
  spacZ : ℚ
  origX : ℚ
  origY : ℚ
  origZ : ℚ

/-- `TransformIndexToPhysicalPoint` for an identity-direction image. -/
def physPointI (img : SImage) (v : Voxel) : Vec3 :=
  ⟨img.origX + img.spacX * (v.1 : ℚ), img.origY + img.spacY * (v.2.1 : ℚ),
   img.origZ + img.spacZ * (v.2.2 : ℚ)⟩

/-- `getSitkCenterCoordinates` (lines 2531-2536): the physical point of
the continuous index `(size - 1) / 2` — the volume's geometric center. -/
def getSitkCenterCoordinates (img : SImage) : Vec3 :=
  ⟨img.origX + img.spacX * (((img.sizeX : ℚ) - 1) / 2),
   img.origY + img.spacY * (((img.sizeY : ℚ) - 1) / 2),
   img.origZ + img.spacZ * (((img.sizeZ : ℚ) - 1) / 2)⟩

/-- Squared index-space (voxel) distance between two voxels. -/
def d2 (a b : Voxel) : ℤ :=
  (a.1 - b.1) ^ 2 + (a.2.1 - b.2.1) ^ 2 + (a.2.2 - b.2.2) ^ 2

/-- Squared index-space distance from a voxel to `image_shape / 2.0`, the
`center_coordinates` used by `getShaftTipCoordinates`. -/
def idxDistSqHalf (img : SImage) (v : Voxel) : ℚ :=
  ((v.1 : ℚ) - (img.sizeX : ℚ) / 2) ^ 2 + ((v.2.1 : ℚ) - (img.sizeY : ℚ) / 2) ^ 2
    + ((v.2.2 : ℚ) - (img.sizeZ : ℚ) / 2) ^ 2

/-- All ordered voxel pairs in row-major order — the flattened
`distances` matrix that `np.argmax` scans. -/
def allPairsRM (l : List Voxel) : List (Voxel × Voxel) :=
  l.flatMap (fun a => l.map (fun b => (a, b)))

/-- One step of the running first-occurrence argmax over squared pair
distances (strict improvement only, matching `np.argmax`'s first-index
tie-breaking). -/
def bestStep (acc : (Voxel × Voxel) × ℤ) (p : Voxel × Voxel) : (Voxel × Voxel) × ℤ :=
  if acc.2 < d2 p.1 p.2 then (p, d2 p.1 p.2) else acc

/-- `getShaftTipCoordinates` (lines 2467-2489) on the enumerated skeleton
voxels `coords` (the rows of `np.argwhere`, already converted to sitk
(x, y, z) index order): find the first pair at maximum pairwise distance,
then return the physical coordinates of whichever of the two extremities
has the smaller index-space distance to `image_shape / 2` (the code
compares index distances, not physical ones).  Junk value on an empty
skeleton, where numpy's `argmax` would raise. -/
def getShaftTipCoordinates (img : SImage) (coords : List Voxel) : Vec3 :=
  match coords with
  | [] => ⟨0, 0, 0⟩
  | c0 :: _ =>
    let best := (allPairsRM coords).foldl bestStep ((c0, c0), -1)
    if idxDistSqHalf img best.1.1 < idxDistSqHalf img best.1.2 then
      physPointI img best.1.1
    else physPointI img best.1.2

/-! ### Scan-plane coordinator (updateScanPlane and its widget caller) -/

/-- One scan plane's rigid pose: the fixed 3x3 rotation block and the
translation column of its 4x4 matrix (`trans.x` = element (0,3),
`trans.y` = element (1,3), `trans.z` = element (2,3)). -/
structure PlanePose where
  rot : Fin 3 → Fin 3 → ℚ
  trans : Vec3

/-- The three scan-plane transform nodes (PLAN_0 = COR, PLAN_1 = SAG,
PLAN_2 = AX). -/
structure ScanPlanes where
  cor : PlanePose
  sag : PlanePose
  ax : PlanePose

/-- Select one plane's pose. -/
def getPose (ps : ScanPlanes) : Plane → PlanePose
  | Plane.COR => ps.cor
  | Plane.SAG => ps.sag
  | Plane.AX => ps.ax

/-- `AINeedleTrackingLogic.updateScanPlane` (lines 2784-2832): copy the
tracked tip translation into the given plane's matrix — all three
coordinates when not `sliceOnly`, else only the plane's through-plane
coordinate (COR: element (1,3), SAG: (0,3), AX: (2,3)); the rotation
block is never touched. -/
def updateScanPlane (ps : ScanPlanes) (tipTracked : Vec3) (plane : Plane)
    (sliceOnly : Bool) : ScanPlanes :=
  match plane with
  | Plane.COR =>
    let pm := ps.cor
    let pm2 := if sliceOnly = false then { pm with trans := tipTracked }
               else { pm with trans := { pm.trans with y := tipTracked.y } }
    { ps with cor := pm2 }
  | Plane.SAG =>
    let pm := ps.sag
    let pm2 := if sliceOnly = false then { pm with trans := tipTracked }
               else { pm with trans := { pm.trans with x := tipTracked.x } }
    { ps with sag := pm2 }
  | Plane.AX =>
    let pm := ps.ax
    let pm2 := if sliceOnly = false then { pm with trans := tipTracked }
               else { pm with trans := { pm.trans with z := tipTracked.z } }
    { ps with ax := pm2 }

/-- `self.useScanPlanes`: which planes are active this session. -/
structure UsePlanes where
  cor : Bool
  sag : Bool
  ax : Bool

/-- Whether a plane is active. -/
def usePlane (u : UsePlanes) : Plane → Bool
  | Plane.COR => u.cor
  | Plane.SAG => u.sag
  | Plane.AX => u.ax

/-- The scan-plane fan-out of `AINeedleTrackingWidget.getNeedle`
(lines 2104-2126): when the update option is on and the cycle's
confidence meets the threshold, each *other* active plane is updated
from the tracked tip with `sliceOnly = not centerScanAtTip`; the
reporting plane itself is never updated. -/
def coordinatorStep (updateFlag : Bool) (confidence level : ℕ) (plane : Plane)
    (use : UsePlanes) (centerScanAtTip : Bool) (tip : Vec3) (ps : ScanPlanes) :
    ScanPlanes :=
  if updateFlag = false then ps
  else if level ≤ confidence then
    match plane with
    | Plane.COR =>
      let ps1 := if use.sag then updateScanPlane ps tip Plane.SAG (!centerScanAtTip) else ps
      if use.ax then updateScanPlane ps1 tip Plane.AX (!centerScanAtTip) else ps1
    | Plane.SAG =>
      let ps1 := if use.cor then updateScanPlane ps tip Plane.COR (!centerScanAtTip) else ps
      if use.ax then updateScanPlane ps1 tip Plane.AX (!centerScanAtTip) else ps1
    | Plane.AX =>
      let ps1 := if use.cor then updateScanPlane ps tip Plane.COR (!centerScanAtTip) else ps
      if use.sag then updateScanPlane ps1 tip Plane.SAG (!centerScanAtTip) else ps1
  else ps

/-- The slice-only write: replace only the plane's through-plane
coordinate of a translation by the tip's. -/
def setThrough (plane : Plane) (old tip : Vec3) : Vec3 :=
  match plane with
  | Plane.COR => { old with y := tip.y }
  | Plane.SAG => { old with x := tip.x }
  | Plane.AX => { old with z := tip.z }

/-! ### Shared helper lemmas -/

/-- The code's nested fallback conditionals compute exactly the spec's
first-match search over the ordered pair list. -/
lemma selectNeedleCandidates_eq_spec (se : Mask) (tipComps shaftComps : List CandC)
    (minTip minShaft : ℕ) :
    selectNeedleCandidates se tipComps shaftComps minTip minShaft
      = Except.ok (specCandidateSelector se tipComps shaftComps minTip minShaft) := by
  cases tipComps with
  | nil =>
    cases shaftComps with
    | nil => rfl
    | cons s1 srest => rfl
  | cons t1 trest =>
    cases shaftComps with
    | nil => rfl
    | cons s1 srest =>
      cases trest with
      | nil =>
        cases srest with
        | nil =>
          by_cases a11 : (dilate t1.mask se ∩ s1.mask).Nonempty <;>
            simp [selectNeedleCandidates, specCandidateSelector, specPairList,
              checkIfAdjacent, adjB, List.find?, a11]
        | cons s2 srest2 =>
          by_cases hS2 : minShaft ≤ s2.size <;>
            by_cases a11 : (dilate t1.mask se ∩ s1.mask).Nonempty <;>
            by_cases a12 : (dilate t1.mask se ∩ s2.mask).Nonempty <;>
            simp [selectNeedleCandidates, specCandidateSelector, specPairList,
              checkIfAdjacent, adjB, List.find?, hS2, a11, a12]
      | cons t2 trest2 =>
        cases srest with
        | nil =>
          by_cases hT2 : minTip ≤ t2.size <;>
            by_cases a11 : (dilate t1.mask se ∩ s1.mask).Nonempty <;>
            by_cases a21 : (dilate t2.mask se ∩ s1.mask).Nonempty <;>
            simp [selectNeedleCandidates, specCandidateSelector, specPairList,
              checkIfAdjacent, adjB, List.find?, hT2, a11, a21]
        | cons s2 srest2 =>
          by_cases hS2 : minShaft ≤ s2.size <;> by_cases hT2 : minTip ≤ t2.size <;>
            by_cases a11 : (dilate t1.mask se ∩ s1.mask).Nonempty <;>
            by_cases a12 : (dilate t1.mask se ∩ s2.mask).Nonempty <;>
            by_cases a21 : (dilate t2.mask se ∩ s1.mask).Nonempty <;>
            by_cases a22 : (dilate t2.mask se ∩ s2.mask).Nonempty <;>
            simp [selectNeedleCandidates, specCandidateSelector, specPairList,
              checkIfAdjacent, adjB, List.find?, hS2, hT2, a11, a12, a21, a22]

/-! ### Claim theorems -/

/-- C1: the confidence classifier step of `getNeedle` produces exactly
the confidence level and representative point prescribed by the
eleven-row decision table of spec §4.3, evaluated top to bottom with
first match winning (the outer `some` also records that some row always
matches).  In particular: tip absent and shaft present with shaft size
≥ minShaft gives MediumLow (2) with the shaft-skeleton extremity; tip
and shaft present and connected with tip size ≥ minTip gives High (5)
with the tip centroid; tip and shaft present, not connected, tip size ≥
minTip gives Medium (3) with the tip centroid. -/
theorem confidence_decision_table_C1 :
    ∀ (tip? : Option (ℕ × Vec3)) (shaftSize? : Option ℕ) (shaftTipPt : Vec3)
      (connected : Bool) (minTip minShaft : ℕ),
    specTableClassify tip? shaftSize? shaftTipPt connected minTip minShaft
      = some (classifyTip tip? shaftSize? shaftTipPt connected minTip minShaft) := by
  intro tip? shaftSize? shaftTipPt connected minTip minShaft
  rcases tip? with _ | ⟨tsz, tcen⟩ <;> rcases shaftSize? with _ | ss <;>
    cases connected <;>
    simp only [specTableClassify, specRows, rowMatches, Tri.matchesB, classifyTip,
      List.find?, Option.isSome] <;>
    first
      | rfl
      | (by_cases h1 : minTip ≤ tsz <;> by_cases h2 : minShaft ≤ ss <;>
          simp [h1, h2])
      | (by_cases h2 : minShaft ≤ ss <;> simp [h2])
      | (by_cases h1 : minTip ≤ tsz <;> simp [h1])

/-- C4: when tip1 and shaft1 both exist but are not adjacent, the
candidate selector tests alternate pairs in the fixed order (tip1,shaft2),
(tip2,shaft1), (tip2,shaft2) — with tip2/shaft2 retained only above the
configured size minimums — the first adjacent pair found becomes the
selection, and if no pair is adjacent the result is `connected = false`
with tip1 and shaft1 retained: the code equals the spec's ordered
first-match search for every input. -/
theorem fallback_search_order_C4 :
    ∀ (se : Mask) (tipComps shaftComps : List CandC) (minTip minShaft : ℕ),
    selectNeedleCandidates se tipComps shaftComps minTip minShaft
      = Except.ok (specCandidateSelector se tipComps shaftComps minTip minShaft) := by
  intro se tipComps shaftComps minTip minShaft
  exact selectNeedleCandidates_eq_spec se tipComps shaftComps minTip minShaft

/-- C10: `checkIfAdjacent` on a present tip returns true exactly when the
dilated tip mask meets the shaft mask; on a `None` tip the dilation is
skipped but the intersection still references the dilated tip, so the
call fails (`NameError`); and every adjacency call site reached inside
`getNeedle`'s candidate-selection step satisfies the non-null
precondition — the whole selection step never raises, on any input. -/
theorem check_if_adjacent_C10 :
    (∀ (tip shaft se : Mask),
      checkIfAdjacent (some tip) (some shaft) se = Except.ok true
        ↔ ((dilate tip se) ∩ shaft).Nonempty)
    ∧ (∀ (shaft? : Option Mask) (se : Mask),
        checkIfAdjacent none shaft? se = Except.error "NameError")
    ∧ (∀ (se : Mask) (tipComps shaftComps : List CandC) (minTip minShaft : ℕ),
        ∃ r, selectNeedleCandidates se tipComps shaftComps minTip minShaft
          = Except.ok r) := by
  refine ⟨?_, ?_, ?_⟩
  · intro tip shaft se
    simp [checkIfAdjacent]
  · intro shaft? se
    rfl
  · intro se tipComps shaftComps minTip minShaft
    exact ⟨_, selectNeedleCandidates_eq_spec se tipComps shaftComps minTip minShaft⟩

/-- C9: a cycle whose tip and shaft masks are both empty (no connected
components at all) reports confidence `None` (the early `return None`),
leaves the segmented-tip output, the tracked tip and the smoothing state
untouched (only the markup colour is set to the untracked one), and
terminates without an error. -/
theorem empty_cycle_C9 :
    ∀ (se : Mask) (minTip minShaft level : ℕ) (cfg : SmoothCfg) (plane : Plane)
      (shaftTipFn : Mask → Vec3) (imgCenter : Vec3) (thickness : ℚ)
      (ts : Option ℚ) (s : NeedleState),
    getNeedleCore se minTip minShaft level cfg plane [] [] shaftTipFn imgCenter
        thickness ts s
      = Except.ok (none, { s with markupTracked := false }) := by
  intro se minTip minShaft level cfg plane shaftTipFn imgCenter thickness ts s
  rfl

/-- C2: in every tracking cycle whose classified confidence is strictly
below the configured level, the tracked tip translation and the whole
smoothing state (EMA position, Kalman state, covariance, timestamp) after
the call equal their values before the call, and the call still emits a
result distinguishable from a new estimate: the sub-threshold confidence
is returned and the markup colour is set to the untracked one. -/
theorem threshold_gate_C2 :
    ∀ (se : Mask) (minTip minShaft level : ℕ) (cfg : SmoothCfg) (plane : Plane)
      (tipComps shaftComps : List CandC) (shaftTipFn : Mask → Vec3)
      (imgCenter : Vec3) (thickness : ℚ) (ts : Option ℚ) (s : NeedleState)
      (c : ℕ) (s' : NeedleState),
    getNeedleCore se minTip minShaft level cfg plane tipComps shaftComps
        shaftTipFn imgCenter thickness ts s = Except.ok (some c, s') →
    c < level →
    s'.tipTracked = s.tipTracked ∧ s'.smooth = s.smooth ∧ s'.markupTracked = false := by
  intro se minTip minShaft level cfg plane tipComps shaftComps shaftTipFn
    imgCenter thickness ts s c s' h hc
  rw [getNeedleCore] at h
  split at h
  · exact absurd h (by simp)
  · split at h <;>
    · dsimp only at h
      split at h
      · simp at h
      · rename_i cp hcl
        simp only [step8] at h
        split at h
        · exact absurd h (by simp)
        · by_cases hle : level ≤ cp.1
          · simp at h
            obtain ⟨h1, h2⟩ := h
            omega
          · rw [if_neg hle] at h
            simp at h
            obtain ⟨h1, h2⟩ := h
            subst h2
            exact ⟨rfl, rfl, rfl⟩

/-- Witness for C2: a concrete low-confidence cycle (no tip, small shaft,
confidence 1 < level 3) leaves the tracked tip `(7,8,9)` and the
smoothing state untouched while emitting confidence 1 with the markup
colour cleared. -/
theorem threshold_gate_C2_witness :
    getNeedleCore ∅ 10 30 3 ⟨false, SmoothMethod.EMA, 1, 0, 0⟩ Plane.COR []
        [⟨1, 5, ⟨0, 0, 0⟩, ∅⟩] (fun _ => ⟨1, 2, 3⟩) ⟨0, 0, 0⟩ 1 none
        ⟨⟨0, 0, 0⟩, ⟨7, 8, 9⟩, ⟨false, false, false⟩, ⟨none, false, none, none, none⟩, true⟩
      = Except.ok (some 1,
          ⟨⟨-1, -2, 3⟩, ⟨7, 8, 9⟩, ⟨false, false, false⟩, ⟨none, false, none, none, none⟩, false⟩)
    ∧ 1 < 3
    ∧ ((⟨⟨-1, -2, 3⟩, ⟨7, 8, 9⟩, ⟨false, false, false⟩, ⟨none, false, none, none, none⟩, false⟩ : NeedleState).tipTracked
        = (⟨⟨0, 0, 0⟩, ⟨7, 8, 9⟩, ⟨false, false, false⟩, ⟨none, false, none, none, none⟩, true⟩ : NeedleState).tipTracked
      ∧ (⟨⟨-1, -2, 3⟩, ⟨7, 8, 9⟩, ⟨false, false, false⟩, ⟨none, false, none, none, none⟩, false⟩ : NeedleState).smooth
        = (⟨⟨0, 0, 0⟩, ⟨7, 8, 9⟩, ⟨false, false, false⟩, ⟨none, false, none, none, none⟩, true⟩ : NeedleState).smooth
      ∧ (⟨⟨-1, -2, 3⟩, ⟨7, 8, 9⟩, ⟨false, false, false⟩, ⟨none, false, none, none, none⟩, false⟩ : NeedleState).markupTracked
        = false) :=
  ⟨rfl, by norm_num,
    threshold_gate_C2 ∅ 10 30 3 ⟨false, SmoothMethod.EMA, 1, 0, 0⟩ Plane.COR []
      [⟨1, 5, ⟨0, 0, 0⟩, ∅⟩] (fun _ => ⟨1, 2, 3⟩) ⟨0, 0, 0⟩ 1 none
      ⟨⟨0, 0, 0⟩, ⟨7, 8, 9⟩, ⟨false, false, false⟩, ⟨none, false, none, none, none⟩, true⟩ 1
      ⟨⟨-1, -2, 3⟩, ⟨7, 8, 9⟩, ⟨false, false, false⟩, ⟨none, false, none, none, none⟩, false⟩
      rfl (by norm_num)⟩

/-- Counterexample for C3: a confident COR cycle in a fresh session (no
other plane has reported: `sag = ax = false`) whose new AP coordinate
equals the image-center coordinate (offset 0 < half the slice thickness
5): the claim says the through-plane axis AP must be written, but the
fused position keeps the old AP value 9 ≠ 0. -/
theorem fusion_through_axis_C3_counterexample :
    ((fuseTip Plane.COR ⟨1, 0, 2⟩ ⟨0, 0, 0⟩ 10 ⟨false, false, false⟩ ⟨9, 9, 9⟩).1.y
        = (⟨9, 9, 9⟩ : Vec3).y)
    ∧ (⟨9, 9, 9⟩ : Vec3).y ≠ (⟨1, 0, 2⟩ : Vec3).y
    ∧ (⟨false, false, false⟩ : PrevDet).sag = false
    ∧ (⟨false, false, false⟩ : PrevDet).ax = false
    ∧ (3 : ℕ) ≤ 5
    ∧ (fuseTip Plane.COR ⟨1, 0, 2⟩ ⟨0, 0, 0⟩ 10 ⟨false, false, false⟩ ⟨9, 9, 9⟩).1.x
        = (⟨1, 0, 2⟩ : Vec3).x
    ∧ (fuseTip Plane.COR ⟨1, 0, 2⟩ ⟨0, 0, 0⟩ 10 ⟨false, false, false⟩ ⟨9, 9, 9⟩).1.z
        = (⟨1, 0, 2⟩ : Vec3).z := by
  norm_num [fuseTip]

/-- C3 (amended): every confident estimate from plane P writes P's two
in-plane axes of the fused tracked tip unconditionally, and writes P's
through-plane axis if and only if no other plane has previously reported
in the session AND the new through-plane coordinate differs from the
image-center coordinate by at least half the slice thickness; otherwise
the through-plane axis keeps its previous value.  In particular a call
from P never writes the through-plane axis once another plane has
reported (`prevDetection` of the other planes true). -/
theorem fusion_axis_write_C3 :
    ∀ (c ic : Vec3) (th : ℚ) (pd : PrevDet) (old : Vec3),
    ((fuseTip Plane.COR c ic th pd old).1.x = c.x
      ∧ (fuseTip Plane.COR c ic th pd old).1.z = c.z
      ∧ (fuseTip Plane.COR c ic th pd old).1.y
          = (if (pd.sag = false ∧ pd.ax = false) ∧ (1 / 2 : ℚ) * th ≤ |ic.y - c.y|
             then c.y else old.y)
      ∧ (fuseTip Plane.COR c ic th pd old).2 = { pd with cor := true })
    ∧ ((fuseTip Plane.SAG c ic th pd old).1.y = c.y
      ∧ (fuseTip Plane.SAG c ic th pd old).1.z = c.z
      ∧ (fuseTip Plane.SAG c ic th pd old).1.x
          = (if (pd.cor = false ∧ pd.ax = false) ∧ (1 / 2 : ℚ) * th ≤ |ic.x - c.x|
             then c.x else old.x)
      ∧ (fuseTip Plane.SAG c ic th pd old).2 = { pd with sag := true })
    ∧ ((fuseTip Plane.AX c ic th pd old).1.x = c.x
      ∧ (fuseTip Plane.AX c ic th pd old).1.y = c.y
      ∧ (fuseTip Plane.AX c ic th pd old).1.z
          = (if (pd.cor = false ∧ pd.sag = false) ∧ (1 / 2 : ℚ) * th ≤ |ic.z - c.z|
             then c.z else old.z)
      ∧ (fuseTip Plane.AX c ic th pd old).2 = { pd with ax := true }) := by
  intro c ic th pd old
  obtain ⟨pc, psag, pax⟩ := pd
  cases pc <;> cases psag <;> cases pax <;>
    refine ⟨⟨?_, ?_, ?_, ?_⟩, ⟨?_, ?_, ?_, ?_⟩, ⟨?_, ?_, ?_, ?_⟩⟩ <;>
    simp only [fuseTip] <;>
    (repeat' split) <;>
    first | rfl | linarith | simp_all

/-- The EMA blend `α·z + (1-α)·p`, componentwise. -/
def emaBlend (a : ℚ) (z p : Vec3) : Vec3 :=
  ⟨a * z.x + (1 - a) * p.x, a * z.y + (1 - a) * p.y, a * z.z + (1 - a) * p.z⟩

/-- C7: with smoothing enabled and the EMA method selected, the first
smoothed call returns the measurement itself and stores it as the EMA
state, and every later call returns and stores
`α·measurement + (1-α)·previous` componentwise. -/
theorem ema_recurrence_C7 :
    ∀ (cfg : SmoothCfg) (st : SmoothState) (z : Vec3) (ts : Option ℚ),
    cfg.enabled = true → cfg.method = SmoothMethod.EMA →
    (st.emaPos = none →
      smoothTip cfg st z ts = (Except.ok z, { st with emaPos := some z }))
    ∧ (∀ p, st.emaPos = some p →
        smoothTip cfg st z ts
          = (Except.ok (emaBlend cfg.alpha z p),
             { st with emaPos := some (emaBlend cfg.alpha z p) })) := by
  intro cfg st z ts he hm
  constructor
  · intro h0
    simp [smoothTip, he, hm, apply_ema, h0]
  · intro p hp
    simp [smoothTip, he, hm, apply_ema, hp, emaBlend]

/-- Witness for C7: with α = 1/2 the first call on measurement (3,4,5)
returns it unchanged, and a later call with state (1,1,1) returns
(2, 5/2, 3). -/
theorem ema_recurrence_C7_witness :
    ((⟨true, SmoothMethod.EMA, 1 / 2, 0, 1⟩ : SmoothCfg).enabled = true)
    ∧ ((⟨true, SmoothMethod.EMA, 1 / 2, 0, 1⟩ : SmoothCfg).method = SmoothMethod.EMA)
    ∧ ((⟨none, false, none, none, none⟩ : SmoothState).emaPos = none →
        smoothTip ⟨true, SmoothMethod.EMA, 1 / 2, 0, 1⟩ ⟨none, false, none, none, none⟩
            ⟨3, 4, 5⟩ none
          = (Except.ok ⟨3, 4, 5⟩,
             { (⟨none, false, none, none, none⟩ : SmoothState) with emaPos := some ⟨3, 4, 5⟩ }))
    ∧ (∀ p, (⟨some ⟨1, 1, 1⟩, false, none, none, none⟩ : SmoothState).emaPos = some p →
        smoothTip ⟨true, SmoothMethod.EMA, 1 / 2, 0, 1⟩
            ⟨some ⟨1, 1, 1⟩, false, none, none, none⟩ ⟨3, 4, 5⟩ none
          = (Except.ok (emaBlend (1 / 2) ⟨3, 4, 5⟩ p),
             { (⟨some ⟨1, 1, 1⟩, false, none, none, none⟩ : SmoothState) with
                 emaPos := some (emaBlend (1 / 2) ⟨3, 4, 5⟩ p) })) :=
  ⟨rfl, rfl,
    (ema_recurrence_C7 ⟨true, SmoothMethod.EMA, 1 / 2, 0, 1⟩
      ⟨none, false, none, none, none⟩ ⟨3, 4, 5⟩ none rfl rfl).1,
    (ema_recurrence_C7 ⟨true, SmoothMethod.EMA, 1 / 2, 0, 1⟩
      ⟨some ⟨1, 1, 1⟩, false, none, none, none⟩ ⟨3, 4, 5⟩ none rfl rfl).2⟩

/-- When the innovation covariance of the predicted state is singular,
the smoothing call fails with the inversion error; the filter fields hold
the predicted state (the in-place `_kf_predict` mutation) and the
timestamp is unchanged. -/
lemma smoothTip_singular_error :
    ∀ (cfg : SmoothCfg) (st : SmoothState) (z : Vec3) (ts : Option ℚ)
      (x : Vec6) (P : Mat6),
    cfg.enabled = true → cfg.method = SmoothMethod.Kalman →
    st.kfInit = true → st.kfX = some x → st.kfP = some P →
    det3 (kfS (kf_predict (dtOf st.lastTs ts) cfg.q x P).2 cfg.r) = 0 →
    smoothTip cfg st z ts
      = (Except.error "LinAlgError",
         { st with kfX := some (kf_predict (dtOf st.lastTs ts) cfg.q x P).1,
                   kfP := some (kf_predict (dtOf st.lastTs ts) cfg.q x P).2 }) := by
  intro cfg st z ts x P he hm hinit hx hP hdet
  simp [smoothTip, he, hm, apply_kf, hinit, hx, hP, kf_update, hdet]

/-- A concrete singular innovation covariance: zero filter covariance and
zero measurement noise give `S = 0`. -/
lemma kfS_zero_det :
    det3 (kfS (kf_predict (dtOf none none) 0 (fun _ => 0) (fun _ _ => 0)).2 0) = 0 := by
  norm_num [det3, kfS, kf_predict, dtOf, madd, mmul, mtrans, kfH, kfF, kfQ, kfR,
    Fin.sum_univ_succ]

/-- Counterexample for C6: at a Kalman cycle whose innovation covariance
is singular (zero covariance, zero measurement noise), the smoothing call
returns the `LinAlgError` outcome — `np.linalg.inv` raises and nothing in
`_kf_update`, `_apply_kf` or `smoothTip` catches it — contradicting the
claim that no exception propagates out of the smoothing call. -/
theorem kalman_singular_C6_counterexample :
    det3 (kfS (kf_predict (dtOf none none) 0 (fun _ => 0) (fun _ _ => 0)).2 0) = 0
    ∧ (smoothTip ⟨true, SmoothMethod.Kalman, 1, 0, 0⟩
        ⟨none, true, some (fun _ => 0), some (fun _ _ => 0), none⟩ ⟨0, 0, 0⟩ none).1
      = Except.error "LinAlgError" := by
  refine ⟨kfS_zero_det, ?_⟩
  rw [smoothTip_singular_error ⟨true, SmoothMethod.Kalman, 1, 0, 0⟩
    ⟨none, true, some (fun _ => 0), some (fun _ _ => 0), none⟩ ⟨0, 0, 0⟩ none
    (fun _ => 0) (fun _ _ => 0) rfl rfl rfl rfl rfl kfS_zero_det]

/-- C6 (amended): for every Kalman-smoothed cycle in which the innovation
covariance `S = H P Hᵀ + R` of the predicted state is singular, the
measurement update for that cycle is skipped and the predicted state is
retained as the filter state (with the last-update timestamp unchanged),
but the matrix-inversion failure propagates out of the smoothing call as
an uncaught exception — the source contains no fallback. -/
theorem kalman_singular_C6 :
    ∀ (cfg : SmoothCfg) (st : SmoothState) (z : Vec3) (ts : Option ℚ)
      (x : Vec6) (P : Mat6),
    cfg.enabled = true → cfg.method = SmoothMethod.Kalman →
    st.kfInit = true → st.kfX = some x → st.kfP = some P →
    det3 (kfS (kf_predict (dtOf st.lastTs ts) cfg.q x P).2 cfg.r) = 0 →
    smoothTip cfg st z ts
      = (Except.error "LinAlgError",
         { st with kfX := some (kf_predict (dtOf st.lastTs ts) cfg.q x P).1,
                   kfP := some (kf_predict (dtOf st.lastTs ts) cfg.q x P).2 }) := by
  intro cfg st z ts x P he hm hinit hx hP hdet
  exact smoothTip_singular_error cfg st z ts x P he hm hinit hx hP hdet

/-- Witness for C6: the amended theorem applied at the concrete singular
cycle (zero covariance and zero measurement noise). -/
theorem kalman_singular_C6_witness :
    ((⟨true, SmoothMethod.Kalman, 1, 0, 0⟩ : SmoothCfg).enabled = true)
    ∧ ((⟨true, SmoothMethod.Kalman, 1, 0, 0⟩ : SmoothCfg).method = SmoothMethod.Kalman)
    ∧ ((⟨none, true, some (fun _ => 0), some (fun _ _ => 0), none⟩ : SmoothState).kfInit = true)
    ∧ det3 (kfS (kf_predict (dtOf none none) 0 (fun _ => 0) (fun _ _ => 0)).2 0) = 0
    ∧ smoothTip ⟨true, SmoothMethod.Kalman, 1, 0, 0⟩
        ⟨none, true, some (fun _ => 0), some (fun _ _ => 0), none⟩ ⟨0, 0, 0⟩ none
      = (Except.error "LinAlgError",
         { (⟨none, true, some (fun _ => 0), some (fun _ _ => 0), none⟩ : SmoothState) with
             kfX := some (kf_predict (dtOf none none) 0 (fun _ => 0) (fun _ _ => 0)).1,
             kfP := some (kf_predict (dtOf none none) 0 (fun _ => 0) (fun _ _ => 0)).2 }) :=
  ⟨rfl, rfl, rfl, kfS_zero_det,
    kalman_singular_C6 ⟨true, SmoothMethod.Kalman, 1, 0, 0⟩
      ⟨none, true, some (fun _ => 0), some (fun _ _ => 0), none⟩ ⟨0, 0, 0⟩ none
      (fun _ => 0) (fun _ _ => 0) rfl rfl rfl rfl rfl kfS_zero_det⟩

/-- Membership in the row-major pair list is membership of both
components. -/
lemma mem_allPairsRM {l : List Voxel} {p : Voxel × Voxel} :
    p ∈ allPairsRM l ↔ p.1 ∈ l ∧ p.2 ∈ l := by
  cases p
  simp [allPairsRM]

/-- The running first-occurrence argmax fold either keeps its seed or
lands on a list element carrying its own distance, never decreases, and
dominates every scanned pair. -/
lemma foldl_bestStep_spec (l : List (Voxel × Voxel)) (acc : (Voxel × Voxel) × ℤ) :
    (l.foldl bestStep acc = acc
      ∨ ((l.foldl bestStep acc).1 ∈ l
          ∧ (l.foldl bestStep acc).2
              = d2 (l.foldl bestStep acc).1.1 (l.foldl bestStep acc).1.2))
    ∧ acc.2 ≤ (l.foldl bestStep acc).2
    ∧ ∀ p ∈ l, d2 p.1 p.2 ≤ (l.foldl bestStep acc).2 := by
  induction l generalizing acc with
  | nil => simp
  | cons p l ih =>
    simp only [List.foldl_cons]
    obtain ⟨ha, hb, hc⟩ := ih (bestStep acc p)
    have hstep : bestStep acc p = acc ∨ bestStep acc p = (p, d2 p.1 p.2) := by
      unfold bestStep
      split
      · right; rfl
      · left; rfl
    have hstep2 : acc.2 ≤ (bestStep acc p).2 := by
      unfold bestStep
      split
      · simp only []
        linarith
      · exact le_refl _
    have hstep3 : d2 p.1 p.2 ≤ (bestStep acc p).2 := by
      unfold bestStep
      split
      · exact le_refl _
      · rename_i hnot
        push_neg at hnot
        exact hnot
    refine ⟨?_, le_trans hstep2 hb, ?_⟩
    · rcases ha with h | h
      · rw [h]
        rcases hstep with h2 | h2
        · left
          exact h2
        · right
          rw [h2]
          exact ⟨List.mem_cons_self p l, rfl⟩
      · right
        exact ⟨List.mem_cons_of_mem p h.1, h.2⟩
    · intro q hq
      rcases List.mem_cons.mp hq with rfl | hq2
      · exact le_trans hstep3 hb
      · exact hc q hq2

/-- Counterexample for C5: an anisotropic image (spacing (1, 1, 10), size
(11, 1, 11), origin 0) whose two-voxel skeleton has extremities
A = (0,0,5) and B = (5,0,1).  The code returns the physical point of B
(the extremity whose *index* coordinates are nearer `size/2`), yet A is
strictly nearer the volume's physical geometric center
(`getSitkCenterCoordinates`), so the returned point is not the endpoint
physically closer to the center. -/
theorem shaft_extremity_C5_counterexample :
    getShaftTipCoordinates ⟨11, 1, 11, 1, 1, 10, 0, 0, 0⟩
        [((5 : ℤ), (0 : ℤ), (1 : ℤ)), ((0 : ℤ), (0 : ℤ), (5 : ℤ))]
      = physPointI ⟨11, 1, 11, 1, 1, 10, 0, 0, 0⟩ ((5 : ℤ), (0 : ℤ), (1 : ℤ))
    ∧ (∀ u ∈ [((5 : ℤ), (0 : ℤ), (1 : ℤ)), ((0 : ℤ), (0 : ℤ), (5 : ℤ))],
        ∀ v ∈ [((5 : ℤ), (0 : ℤ), (1 : ℤ)), ((0 : ℤ), (0 : ℤ), (5 : ℤ))],
        d2 u v ≤ d2 ((0 : ℤ), (0 : ℤ), (5 : ℤ)) ((5 : ℤ), (0 : ℤ), (1 : ℤ)))
    ∧ Vec3.distSq (physPointI ⟨11, 1, 11, 1, 1, 10, 0, 0, 0⟩ ((0 : ℤ), (0 : ℤ), (5 : ℤ)))
          (getSitkCenterCoordinates ⟨11, 1, 11, 1, 1, 10, 0, 0, 0⟩)
        < Vec3.distSq (physPointI ⟨11, 1, 11, 1, 1, 10, 0, 0, 0⟩ ((5 : ℤ), (0 : ℤ), (1 : ℤ)))
          (getSitkCenterCoordinates ⟨11, 1, 11, 1, 1, 10, 0, 0, 0⟩)
    ∧ physPointI ⟨11, 1, 11, 1, 1, 10, 0, 0, 0⟩ ((5 : ℤ), (0 : ℤ), (1 : ℤ))
        ≠ physPointI ⟨11, 1, 11, 1, 1, 10, 0, 0, 0⟩ ((0 : ℤ), (0 : ℤ), (5 : ℤ)) := by
  refine ⟨?_, ?_, ?_, ?_⟩
  · norm_num [getShaftTipCoordinates, allPairsRM, bestStep, d2, idxDistSqHalf, physPointI]
  · intro u hu v hv
    fin_cases hu <;> fin_cases hv <;> norm_num [d2]
  · norm_num [Vec3.distSq, physPointI, getSitkCenterCoordinates]
  · norm_num [physPointI, Vec3.mk.injEq]

/-- C5 (amended): for every non-empty skeleton, `getShaftTipCoordinates`
returns the physical coordinates of one endpoint of a pair of skeleton
voxels at maximum pairwise distance, namely the endpoint whose
*index-space* coordinates are closer to `image_shape / 2` (under the
code's strict-less comparison); the choice is not made in physical
space. -/
theorem shaft_extremity_C5 :
    ∀ (img : SImage) (coords : List Voxel), coords ≠ [] →
    ∃ a b, a ∈ coords ∧ b ∈ coords
      ∧ (∀ u ∈ coords, ∀ v ∈ coords, d2 u v ≤ d2 a b)
      ∧ getShaftTipCoordinates img coords
          = (if idxDistSqHalf img a < idxDistSqHalf img b then physPointI img a
             else physPointI img b) := by
  intro img coords hne
  cases coords with
  | nil => exact absurd rfl hne
  | cons c0 rest =>
    obtain ⟨ha, hb, hc⟩ := foldl_bestStep_spec (allPairsRM (c0 :: rest)) ((c0, c0), -1)
    set res := (allPairsRM (c0 :: rest)).foldl bestStep ((c0, c0), -1) with hres
    have hmem0 : ((c0, c0) : Voxel × Voxel) ∈ allPairsRM (c0 :: rest) :=
      mem_allPairsRM.mpr ⟨by simp, by simp⟩
    have h0 : (0 : ℤ) ≤ res.2 := by
      have := hc _ hmem0
      have hd : d2 c0 c0 = 0 := by simp [d2]
      rw [hd] at this
      exact this
    have hres2 : res.1 ∈ allPairsRM (c0 :: rest) ∧ res.2 = d2 res.1.1 res.1.2 := by
      rcases ha with h | h
      · exfalso
        rw [h] at h0
        norm_num at h0
      · exact h
    obtain ⟨hm1, hm2⟩ := mem_allPairsRM.mp hres2.1
    refine ⟨res.1.1, res.1.2, hm1, hm2, ?_, ?_⟩
    · intro u hu v hv
      have h3 := hc (u, v) (mem_allPairsRM.mpr ⟨hu, hv⟩)
      rw [hres2.2] at h3
      exact h3
    · simp only [getShaftTipCoordinates]

/-- Witness for C5: the amended theorem applied to a one-voxel skeleton
in a unit image. -/
theorem shaft_extremity_C5_witness :
    (([((0 : ℤ), (0 : ℤ), (0 : ℤ))] : List Voxel) ≠ [])
    ∧ ∃ a b, a ∈ [((0 : ℤ), (0 : ℤ), (0 : ℤ))] ∧ b ∈ [((0 : ℤ), (0 : ℤ), (0 : ℤ))]
        ∧ (∀ u ∈ [((0 : ℤ), (0 : ℤ), (0 : ℤ))], ∀ v ∈ [((0 : ℤ), (0 : ℤ), (0 : ℤ))],
            d2 u v ≤ d2 a b)
        ∧ getShaftTipCoordinates ⟨1, 1, 1, 1, 1, 1, 0, 0, 0⟩ [((0 : ℤ), (0 : ℤ), (0 : ℤ))]
            = (if idxDistSqHalf ⟨1, 1, 1, 1, 1, 1, 0, 0, 0⟩ a
                  < idxDistSqHalf ⟨1, 1, 1, 1, 1, 1, 0, 0, 0⟩ b
               then physPointI ⟨1, 1, 1, 1, 1, 1, 0, 0, 0⟩ a
               else physPointI ⟨1, 1, 1, 1, 1, 1, 0, 0, 0⟩ b) :=
  ⟨by simp, shaft_extremity_C5 ⟨1, 1, 1, 1, 1, 1, 0, 0, 0⟩
    [((0 : ℤ), (0 : ℤ), (0 : ℤ))] (by simp)⟩

/-- C8: on a confident fusion event the scan-plane coordinator updates
only the active planes other than the reporting plane: the reporting
plane's pose is untouched, every rotation block is untouched, inactive
planes are untouched, and each other active plane's translation becomes
the full tracked tip in re-center mode (`centerScanAtTip = true`) or has
only its through-plane coordinate (COR: AP, SAG: LR, AX: IS) replaced in
slice-only mode. -/
theorem scan_plane_coordinator_C8 :
    ∀ (confidence level : ℕ) (plane : Plane) (use : UsePlanes) (cat : Bool)
      (tip : Vec3) (ps : ScanPlanes),
    level ≤ confidence →
    (getPose (coordinatorStep true confidence level plane use cat tip ps) plane
        = getPose ps plane)
    ∧ (∀ q : Plane,
        (getPose (coordinatorStep true confidence level plane use cat tip ps) q).rot
          = (getPose ps q).rot)
    ∧ (∀ q : Plane, q ≠ plane → usePlane use q = false →
        getPose (coordinatorStep true confidence level plane use cat tip ps) q
          = getPose ps q)
    ∧ (∀ q : Plane, q ≠ plane → usePlane use q = true →
        (getPose (coordinatorStep true confidence level plane use cat tip ps) q).trans
          = (if cat then tip else setThrough q (getPose ps q).trans tip)) := by
  intro confidence level plane use cat tip ps hle
  obtain ⟨uc, us, ua⟩ := use
  refine ⟨?_, ?_, ?_, ?_⟩
  · cases plane <;> cases cat <;> cases uc <;> cases us <;> cases ua <;>
      simp [coordinatorStep, updateScanPlane, getPose, usePlane, hle]
  · intro q
    cases plane <;> cases q <;> cases cat <;> cases uc <;> cases us <;> cases ua <;>
      simp [coordinatorStep, updateScanPlane, getPose, usePlane, hle]
  · intro q hq hu
    cases plane <;> cases q <;> simp_all [usePlane] <;>
      cases cat <;> cases uc <;> cases us <;> cases ua <;>
      simp_all [coordinatorStep, updateScanPlane, getPose, hle]
  · intro q hq hu
    cases plane <;> cases q <;> simp_all [usePlane] <;>
      cases cat <;> cases uc <;> cases us <;> cases ua <;>
      simp_all [coordinatorStep, updateScanPlane, getPose, setThrough, hle]

/-- Witness for C8: a confident COR report (confidence 5 ≥ level 3) with
all planes active in slice-only mode. -/
theorem scan_plane_coordinator_C8_witness :
    3 ≤ 5
    ∧ ((getPose (coordinatorStep true 5 3 Plane.COR ⟨true, true, true⟩ false ⟨1, 2, 3⟩
          ⟨⟨fun _ _ => 0, ⟨4, 5, 6⟩⟩, ⟨fun _ _ => 0, ⟨7, 8, 9⟩⟩, ⟨fun _ _ => 0, ⟨10, 11, 12⟩⟩⟩)
          Plane.COR
        = getPose ⟨⟨fun _ _ => 0, ⟨4, 5, 6⟩⟩, ⟨fun _ _ => 0, ⟨7, 8, 9⟩⟩,
            ⟨fun _ _ => 0, ⟨10, 11, 12⟩⟩⟩ Plane.COR)
      ∧ (∀ q : Plane,
          (getPose (coordinatorStep true 5 3 Plane.COR ⟨true, true, true⟩ false ⟨1, 2, 3⟩
            ⟨⟨fun _ _ => 0, ⟨4, 5, 6⟩⟩, ⟨fun _ _ => 0, ⟨7, 8, 9⟩⟩, ⟨fun _ _ => 0, ⟨10, 11, 12⟩⟩⟩) q).rot
            = (getPose ⟨⟨fun _ _ => 0, ⟨4, 5, 6⟩⟩, ⟨fun _ _ => 0, ⟨7, 8, 9⟩⟩,
                ⟨fun _ _ => 0, ⟨10, 11, 12⟩⟩⟩ q).rot)
      ∧ (∀ q : Plane, q ≠ Plane.COR → usePlane ⟨true, true, true⟩ q = false →
          getPose (coordinatorStep true 5 3 Plane.COR ⟨true, true, true⟩ false ⟨1, 2, 3⟩
            ⟨⟨fun _ _ => 0, ⟨4, 5, 6⟩⟩, ⟨fun _ _ => 0, ⟨7, 8, 9⟩⟩, ⟨fun _ _ => 0, ⟨10, 11, 12⟩⟩⟩) q
            = getPose ⟨⟨fun _ _ => 0, ⟨4, 5, 6⟩⟩, ⟨fun _ _ => 0, ⟨7, 8, 9⟩⟩,
                ⟨fun _ _ => 0, ⟨10, 11, 12⟩⟩⟩ q)
      ∧ (∀ q : Plane, q ≠ Plane.COR → usePlane ⟨true, true, true⟩ q = true →
          (getPose (coordinatorStep true 5 3 Plane.COR ⟨true, true, true⟩ false ⟨1, 2, 3⟩
            ⟨⟨fun _ _ => 0, ⟨4, 5, 6⟩⟩, ⟨fun _ _ => 0, ⟨7, 8, 9⟩⟩, ⟨fun _ _ => 0, ⟨10, 11, 12⟩⟩⟩) q).trans
            = (if false then ⟨1, 2, 3⟩
               else setThrough q (getPose ⟨⟨fun _ _ => 0, ⟨4, 5, 6⟩⟩, ⟨fun _ _ => 0, ⟨7, 8, 9⟩⟩,
                 ⟨fun _ _ => 0, ⟨10, 11, 12⟩⟩⟩ q).trans ⟨1, 2, 3⟩))) :=
  ⟨by norm_num,
    scan_plane_coordinator_C8 5 3 Plane.COR ⟨true, true, true⟩ false ⟨1, 2, 3⟩
      ⟨⟨fun _ _ => 0, ⟨4, 5, 6⟩⟩, ⟨fun _ _ => 0, ⟨7, 8, 9⟩⟩, ⟨fun _ _ => 0, ⟨10, 11, 12⟩⟩⟩
      (by norm_num)⟩

end AINeedle
